import Mathlib

/-!
Shallow embedding of `pywinauto/findwindows.py` (functions `find_window`,
`find_elements`, `find_windows` and their helpers), together with theorems
settling the specification claims about the criteria-filtering pipeline.

Modelling conventions:
* UI elements (`UIAElementInfo`) and native window handles are both modelled
  as `Int` identifiers; every property accessor (`className`, `windowText`,
  `parent`, ... resp. the `handleprops` functions) is a field of an
  environment record (`Env` for the UIA pipeline, `WEnv` for the native one),
  so a concrete environment plays the role of a fake native UI state.
* compiled regular expressions are modelled as matcher functions
  `String → Bool` standing for the truthiness of `pattern.match(s)`
  (start-anchored in Python); the pipeline only ever consults this capability.
* Python exceptions become the `FindErr` error type of an `Except` result:
  `WindowNotFoundError` (optionally carrying the `found_index` and the count
  interpolated into its message), `WindowAmbiguousError` (carrying the matched
  windows and the criteria record, standing for the rendered criteria text),
  the `IndexError` raised by an out-of-range `elements[ctrl_index]`, and the
  `ctypes.WinError` raised when `GetGUIThreadInfo` fails.
* Python list indexing `xs[i]` and slicing `xs[i:j]` (negative indices
  included) are embedded exactly (`pyGet`, `pySlice`).
* `NativeElementInfo(h)` carries no information beyond its handle here, so
  `find_windows` returns the handles themselves.
* the pipelines additionally return a counter of `GetGUIThreadInfo` platform
  queries (`find_elements_counted`, `find_windows_counted`); the observable
  result of the Python function is the first component (`find_elements`,
  `find_windows`).
-/

set_option autoImplicit false

/-- Argument accepted by the `parent` criterion of `find_elements`: either an
element object or a raw integer handle (the code converts an integer via
`UIAElementInfo(parent)` when it is truthy). -/
inductive ParentArg where
  | elem (e : Int)
  | handle (h : Int)

/-- Criteria record of `find_elements`, one field per keyword parameter, with
the source's default values. -/
structure CriteriaE where
  class_name : Option String := none
  class_name_re : Option (String → Bool) := none
  parent : Option ParentArg := none
  process : Option Int := none
  title : Option String := none
  title_re : Option (String → Bool) := none
  top_level_only : Bool := true
  visible_only : Bool := true
  enabled_only : Bool := false
  best_match : Option String := none
  handle : Option Int := none
  ctrl_index : Option Int := none
  found_index : Option Int := none
  predicate_func : Option (Int → Bool) := none
  active_only : Bool := false
  control_id : Option Int := none

/-- Criteria record of `find_windows`; identical to `CriteriaE` except that
`parent` is a raw window handle. -/
structure CriteriaW where
  class_name : Option String := none
  class_name_re : Option (String → Bool) := none
  parent : Option Int := none
  process : Option Int := none
  title : Option String := none
  title_re : Option (String → Bool) := none
  top_level_only : Bool := true
  visible_only : Bool := true
  enabled_only : Bool := false
  best_match : Option String := none
  handle : Option Int := none
  ctrl_index : Option Int := none
  found_index : Option Int := none
  predicate_func : Option (Int → Bool) := none
  active_only : Bool := false
  control_id : Option Int := none

/-- Exceptions raised by the module.  `notFound` models
`WindowNotFoundError`; when raised by the `found_index` step it carries the
requested index and the actual count interpolated into the message.
`ambiguous` models `WindowAmbiguousError`, carrying the matched windows
(`exception.windows`) and the criteria record (standing for the rendered
criteria text of the message).  `indexError` models the `IndexError` raised
by an out-of-range `elements[ctrl_index]`, and `winError` the
`ctypes.WinError` raised when `GetGUIThreadInfo` returns 0. -/
inductive FindErr where
  | notFound (info : Option (Int × Nat))
  | ambiguous (ws : List Int) (crit : CriteriaE)
  | indexError
  | winError

/-- Environment of the UIA pipeline: the external collaborators of
`find_elements`.  Elements are `Int` identifiers; each field models one
property accessor or platform query of the source. -/
structure Env where
  fromHandle : Option Int → Int
  enumElements : List Int
  descendants : Int → List Int
  parentOf : Int → Option Int
  className : Int → String
  windowText : Int → Option String
  processId : Int → Int
  visible : Int → Bool
  enabled : Int → Bool
  controlId : Int → Int
  handleOf : Int → Option Int
  guiThreadInfo : Option Int
  wrapOk : Int → Bool
  findBestMatches : String → List Int → List Int

/-- Environment of the native pipeline: the external collaborators of
`find_windows` (`enum_windows`, `GetDesktopWindow`, the `handleprops`
accessors, `GetGUIThreadInfo`, `WrapHandle` and `findbestmatch`). -/
structure WEnv where
  enumWindows : List Int
  desktop : Int
  children : Int → List Int
  hpParent : Int → Int
  classname : Int → String
  text : Int → Option String
  processid : Int → Int
  isvisible : Int → Bool
  isenabled : Int → Bool
  controlid : Int → Int
  guiThreadInfo : Option Int
  wrapOkW : Int → Bool
  findBestMatchesW : String → List Int → List Int

/-- Truthiness of an optional integer (Python: `None` and `0` are falsy). -/
def optTruthy : Option Int → Bool
  | none => false
  | some h => h != 0

/-- Python list indexing `xs[i]`: a negative index counts from the end; an
index out of range raises `IndexError`. -/
def pyGet (xs : List Int) (i : Int) : Except FindErr Int :=
  let j : Int := if i < 0 then i + xs.length else i
  if 0 ≤ j ∧ j < (xs.length : Int) then .ok (xs.getD j.toNat 0)
  else .error .indexError

/-- Normalisation of one slice bound, as in Python's `xs[a:b]` with step 1. -/
def pySliceIdx (n : Nat) (i : Int) : Nat :=
  if i < 0 then (i + n).toNat else min i.toNat n

/-- Python list slicing `xs[a:b]` (step 1). -/
def pySlice (xs : List Int) (a b : Int) : List Int :=
  (xs.take (pySliceIdx xs.length b)).drop (pySliceIdx xs.length a)

/-- The `control_id` step: `if control_id is not None and elements:` then keep
the elements whose control id equals the criterion. -/
def stepControlId (getCid : Int → Int) (cid : Option Int) (l : List Int) : List Int :=
  match cid with
  | some v => if l.isEmpty then l else l.filter (fun e => getCid e == v)
  | none => l

/-- The `active_only` step of `find_elements`: one `GetGUIThreadInfo` query;
on failure raise `WinError`; otherwise keep the first element whose handle
equals `hwndActive`, or reduce to empty when none matches. -/
def stepActive (env : Env) (l : List Int) : Except FindErr (List Int) :=
  match env.guiThreadInfo with
  | none => .error .winError
  | some hw =>
    .ok (match l.find? (fun e => env.handleOf e == some hw) with
         | some e => [e]
         | none => [])

/-- The `active_only` step of `find_windows`: one `GetGUIThreadInfo` query;
on failure raise `WinError`; otherwise `[hwndActive]` if it is a member of
the population, else the empty list. -/
def stepActiveW (wenv : WEnv) (l : List Int) : Except FindErr (List Int) :=
  match wenv.guiThreadInfo with
  | none => .error .winError
  | some hw => .ok (if hw ∈ l then [hw] else [])

/-- The class-name step: an exact `class_name` filter, followed by an
independent `class_name_re` filter (two separate `if` statements in the
source, not an `elif`). -/
def stepClass (getClass : Int → String) (cn : Option String)
    (cnre : Option (String → Bool)) (l : List Int) : List Int :=
  let l1 := match cn with
    | some s => l.filter (fun e => getClass e == s)
    | none => l
  match cnre with
  | some r => l1.filter (fun e => r (getClass e))
  | none => l1

/-- The `process` step: keep elements with the given owning process id. -/
def stepProcess (getPid : Int → Int) (p : Option Int) (l : List Int) : List Int :=
  match p with
  | some pid => l.filter (fun e => getPid e == pid)
  | none => l

/-- The title step: exact `title` match, `elif` a `title_re` match in which an
element whose text is `None` never matches (and raises nothing; this function
is total). -/
def stepTitle (getText : Int → Option String) (t : Option String)
    (tre : Option (String → Bool)) (l : List Int) : List Int :=
  match t with
  | some s => l.filter (fun e => getText e == some s)
  | none =>
    match tre with
    | some r =>
      l.filter (fun e => match getText e with
        | some s => r s
        | none => false)
    | none => l

/-- The `visible_only` step. -/
def stepVisible (getVis : Int → Bool) (vo : Bool) (l : List Int) : List Int :=
  if vo then l.filter getVis else l

/-- The `enabled_only` step. -/
def stepEnabled (getEn : Int → Bool) (eo : Bool) (l : List Int) : List Int :=
  if eo then l.filter getEn else l

/-- The `best_match` step of `find_elements`: wrap the elements with a truthy
handle that wrap successfully, delegate to `findbestmatch`, and convert the
survivors back via `UIAElementInfo(elem.handle)`. -/
def stepBestMatch (env : Env) (bm : Option String) (l : List Int) : List Int :=
  match bm with
  | some s =>
    (env.findBestMatches s
      (l.filter (fun e => optTruthy (env.handleOf e) && env.wrapOk e))).map
      (fun e => env.fromHandle (env.handleOf e))
  | none => l

/-- The `best_match` step of `find_windows`: wrap the handles that wrap
successfully, delegate to `findbestmatch`, and take the survivors' handles. -/
def stepBestMatchW (wenv : WEnv) (bm : Option String) (l : List Int) : List Int :=
  match bm with
  | some s => wenv.findBestMatchesW s (l.filter wenv.wrapOkW)
  | none => l

/-- The `predicate_func` step. -/
def stepPredicate (pf : Option (Int → Bool)) (l : List Int) : List Int :=
  match pf with
  | some f => l.filter f
  | none => l

/-- The `found_index` step, the last criterion: if the guard
`found_index < len(elements)` holds, take the Python slice
`elements[found_index : found_index + 1]`; otherwise raise
`WindowNotFoundError` carrying the requested index and the count. -/
def applyFoundIndex (fi : Option Int) (l : List Int) : Except FindErr (List Int) :=
  match fi with
  | none => .ok l
  | some i =>
    if i < (l.length : Int) then .ok (pySlice l i (i + 1))
    else .error (.notFound (some (i, l.length)))

/-- Resolution of the `parent` argument of `find_elements`
(lines 129-132 of the source): a truthy integer handle is converted through
`UIAElementInfo`; `None` and the falsy handle `0` resolve to no parent. -/
def resolvedParentE (env : Env) (p : Option ParentArg) : Option Int :=
  match p with
  | none => none
  | some (.elem e) => some e
  | some (.handle h) => if h = 0 then none else some (env.fromHandle (some h))

/-- Descendant-mode population of `find_elements`: all descendants of the
resolved parent, the desktop (`UIAElementInfo(None)`) when no parent. -/
def descendantPopE (env : Env) (p : Option ParentArg) : List Int :=
  env.descendants ((resolvedParentE env p).getD (env.fromHandle none))

/-- Population acquisition of `find_elements`: in top-level mode, the
enumerated top-level elements, restricted to the children of `parent` when
one is given; in descendant mode, the descendants of the parent, with the
`ctrl_index` short-circuit (`.inl` is an immediate `return`). -/
def acquireE (env : Env) (tlo : Bool) (par : Option ParentArg)
    (ci : Option Int) : Except FindErr (List Int) ⊕ List Int :=
  if tlo then
    .inr (match resolvedParentE env par with
      | some pe => env.enumElements.filter (fun e => env.parentOf e == some pe)
      | none => env.enumElements)
  else
    match ci with
    | some i => .inl ((pyGet (descendantPopE env par) i).map (fun x => [x]))
    | none => .inr (descendantPopE env par)

/-- Descendant-mode population of `find_windows`: `handleprops.children` of
the parent handle, the desktop window when the parent is absent or `0`. -/
def descendantPopW (wenv : WEnv) (p : Option Int) : List Int :=
  wenv.children (match p with
    | some h => if h = 0 then wenv.desktop else h
    | none => wenv.desktop)

/-- Population acquisition of `find_windows`, the native analogue of
`acquireE` (the parent filter compares `handleprops.parent(win)` with the
raw parent handle). -/
def acquireW (wenv : WEnv) (tlo : Bool) (par : Option Int)
    (ci : Option Int) : Except FindErr (List Int) ⊕ List Int :=
  if tlo then
    .inr (match par with
      | some p =>
        if p = 0 then wenv.enumWindows
        else wenv.enumWindows.filter (fun w => wenv.hpParent w == p)
      | none => wenv.enumWindows)
  else
    match ci with
    | some i => .inl ((pyGet (descendantPopW wenv par) i).map (fun x => [x]))
    | none => .inr (descendantPopW wenv par)

/-- Filter tail of `find_elements` (class name through `predicate_func`),
applied in the source's fixed order. -/
def filterTailE (env : Env) (cn : Option String) (cnre : Option (String → Bool))
    (prc : Option Int) (t : Option String) (tre : Option (String → Bool))
    (vo : Bool) (eo : Bool) (bm : Option String)
    (pf : Option (Int → Bool)) (l : List Int) : List Int :=
  stepPredicate pf
    (stepBestMatch env bm
      (stepEnabled env.enabled eo
        (stepVisible env.visible vo
          (stepTitle env.windowText t tre
            (stepProcess env.processId prc
              (stepClass env.className cn cnre l))))))

/-- Filter tail of `find_windows`, the native analogue of `filterTailE`. -/
def filterTailW (wenv : WEnv) (cn : Option String) (cnre : Option (String → Bool))
    (prc : Option Int) (t : Option String) (tre : Option (String → Bool))
    (vo : Bool) (eo : Bool) (bm : Option String)
    (pf : Option (Int → Bool)) (l : List Int) : List Int :=
  stepPredicate pf
    (stepBestMatchW wenv bm
      (stepEnabled wenv.isenabled eo
        (stepVisible wenv.isvisible vo
          (stepTitle wenv.text t tre
            (stepProcess wenv.processid prc
              (stepClass wenv.classname cn cnre l))))))

/-- Tail of `find_elements` after the `active_only` step: the early stop
`if not elements: return elements`, then the filter tail, then `found_index`. -/
def restE (env : Env) (c : CriteriaE) (l : List Int) : Except FindErr (List Int) :=
  if l.isEmpty then .ok l
  else
    applyFoundIndex c.found_index
      (filterTailE env c.class_name c.class_name_re c.process c.title c.title_re
        c.visible_only c.enabled_only c.best_match c.predicate_func l)

/-- Tail of `find_windows` after the `active_only` step. -/
def restW (wenv : WEnv) (c : CriteriaW) (l : List Int) : Except FindErr (List Int) :=
  if l.isEmpty then .ok l
  else
    applyFoundIndex c.found_index
      (filterTailW wenv c.class_name c.class_name_re c.process c.title c.title_re
        c.visible_only c.enabled_only c.best_match c.predicate_func l)

/-- Tail of `find_elements` after population acquisition: the `control_id`
step, the `active_only` step (with its query count), then `restE`. -/
def afterAcquireE (env : Env) (c : CriteriaE) (elems : List Int) :
    Except FindErr (List Int) × Nat :=
  let elems1 := stepControlId env.controlId c.control_id elems
  if c.active_only then
    match stepActive env elems1 with
    | .error e => (.error e, 1)
    | .ok elems2 => (restE env c elems2, 1)
  else (restE env c elems1, 0)

/-- Instrumented `find_elements`: the result of the Python function together
with the number of `GetGUIThreadInfo` platform queries performed. -/
def find_elements_counted (env : Env) (c : CriteriaE) :
    Except FindErr (List Int) × Nat :=
  match c.handle with
  | some h => (.ok [env.fromHandle (some h)], 0)
  | none =>
    match acquireE env c.top_level_only c.parent c.ctrl_index with
    | .inl res => (res, 0)
    | .inr elems => afterAcquireE env c elems

/-- The function `find_elements` of the source (UIA pipeline). -/
def find_elements (env : Env) (c : CriteriaE) : Except FindErr (List Int) :=
  (find_elements_counted env c).1

/-- Tail of `find_windows` after population acquisition, analogous to
`afterAcquireE`. -/
def afterAcquireW (wenv : WEnv) (c : CriteriaW) (ws : List Int) :
    Except FindErr (List Int) × Nat :=
  let ws1 := stepControlId wenv.controlid c.control_id ws
  if c.active_only then
    match stepActiveW wenv ws1 with
    | .error e => (.error e, 1)
    | .ok ws2 => (restW wenv c ws2, 1)
  else (restW wenv c ws1, 0)

/-- Instrumented `find_windows`: the result of the Python function together
with the number of `GetGUIThreadInfo` platform queries performed. -/
def find_windows_counted (wenv : WEnv) (c : CriteriaW) :
    Except FindErr (List Int) × Nat :=
  match c.handle with
  | some h => (.ok [h], 0)
  | none =>
    match acquireW wenv c.top_level_only c.parent c.ctrl_index with
    | .inl res => (res, 0)
    | .inr ws => afterAcquireW wenv c ws

/-- The function `find_windows` of the source (native pipeline); the returned
integers stand for the `NativeElementInfo` wrappers of the handles. -/
def find_windows (wenv : WEnv) (c : CriteriaW) : Except FindErr (List Int) :=
  (find_windows_counted wenv c).1

/-- The function `find_window` of the source: delegate to the pipeline
(`sysinfo.UIA_support` is modelled as true, selecting `find_elements`; the
resolution logic of the source is identical on both branches), then raise
`WindowNotFoundError` on an empty result, `WindowAmbiguousError` (carrying
the matched windows and the criteria) on two or more, else return the single
element. -/
def find_window (env : Env) (c : CriteriaE) : Except FindErr Int :=
  match find_elements env c with
  | .error e => .error e
  | .ok [] => .error (.notFound none)
  | .ok [w] => .ok w
  | .ok ws => .error (.ambiguous ws c)

/-- Initial population defined by the acquisition mode, as in the spec's
subset property: all top-level elements in top-level mode, all descendants of
the given parent in descendant mode. -/
def initPopE (env : Env) (c : CriteriaE) : List Int :=
  if c.top_level_only then env.enumElements else descendantPopE env c.parent

/-- Population of `find_elements` at the early-stop check
(`if not elements: return elements`, line 180 of the source): after
acquisition, the `control_id` step and the `active_only` step, before the
class-name through `found_index` steps. -/
def preFilterPopE (env : Env) (c : CriteriaE) : Except FindErr (List Int) :=
  match c.handle with
  | some h => .ok [env.fromHandle (some h)]
  | none =>
    match acquireE env c.top_level_only c.parent c.ctrl_index with
    | .inl res => res
    | .inr elems =>
      let elems1 := stepControlId env.controlId c.control_id elems
      if c.active_only then stepActive env elems1 else .ok elems1

/-- Population of `find_windows` at the early-stop check (line 336 of the
source), analogous to `preFilterPopE`. -/
def preFilterPopW (wenv : WEnv) (c : CriteriaW) : Except FindErr (List Int) :=
  match c.handle with
  | some h => .ok [h]
  | none =>
    match acquireW wenv c.top_level_only c.parent c.ctrl_index with
    | .inl res => res
    | .inr ws =>
      let ws1 := stepControlId wenv.controlid c.control_id ws
      if c.active_only then stepActiveW wenv ws1 else .ok ws1


/-- Concrete UIA environment used by witnesses and counterexamples: two
top-level elements 1 ("Button", text "OK") and 2 ("Edit", no text), both
visible; element 2 is the active one. -/
def sampleEnv : Env where
  fromHandle := fun o => o.getD 0
  enumElements := [1, 2]
  descendants := fun _ => [10, 11, 12]
  parentOf := fun _ => none
  className := fun e => if e = 1 then "Button" else "Edit"
  windowText := fun e => if e = 1 then some "OK" else none
  processId := fun _ => 7
  visible := fun _ => true
  enabled := fun _ => true
  controlId := fun _ => 0
  handleOf := fun e => some e
  guiThreadInfo := some 2
  wrapOk := fun _ => true
  findBestMatches := fun _ l => l

/-- Concrete native environment used by witnesses, mirroring `sampleEnv`. -/
def sampleW : WEnv where
  enumWindows := [1, 2]
  desktop := 0
  children := fun _ => [10, 11, 12]
  hpParent := fun _ => 0
  classname := fun w => if w = 1 then "Button" else "Edit"
  text := fun w => if w = 1 then some "OK" else none
  processid := fun _ => 7
  isvisible := fun _ => true
  isenabled := fun _ => true
  controlid := fun _ => 0
  guiThreadInfo := some 2
  wrapOkW := fun _ => true
  findBestMatchesW := fun _ l => l

/-- Environment with no top-level elements at all, for the C3 and C5
counterexamples. -/
def emptyEnv : Env := { sampleEnv with enumElements := [] }

/-- Environment for the `best_match` part of the C5 counterexample: one
top-level element 1 whose wrapper survives the external matcher, but whose
re-creation through `UIAElementInfo(elem.handle)` yields the distinct
element 99. -/
def bmEnv : Env := { sampleEnv with enumElements := [1], fromHandle := fun _ => 99 }

/-- C2: when `handle` is given, `find_elements` returns exactly the
one-element list wrapping that handle (`UIAElementInfo(handle)`) and
`find_windows` returns exactly the one-element list wrapping that handle
(`NativeElementInfo(handle)`), whatever the other criteria are. -/
theorem handle_short_circuit :
    (∀ (env : Env) (c : CriteriaE) (h : Int), c.handle = some h →
      find_elements env c = .ok [env.fromHandle (some h)]) ∧
    (∀ (wenv : WEnv) (c : CriteriaW) (h : Int), c.handle = some h →
      find_windows wenv c = .ok [h]) := by
  constructor
  · intro env c h hh
    simp [find_elements, find_elements_counted, hh]
  · intro wenv c h hh
    simp [find_windows, find_windows_counted, hh]

/-- Witness for C2 at a concrete input: handle 5 with other criteria set. -/
theorem handle_short_circuit_witness :
    find_elements sampleEnv { handle := some 5, class_name := some "X", visible_only := false } = .ok [5] ∧
    find_windows sampleW { handle := some 5, title := some "Y", found_index := some 9 } = .ok [5] :=
  ⟨handle_short_circuit.1 sampleEnv _ 5 rfl, handle_short_circuit.2 sampleW _ 5 rfl⟩

/-- C1: the single-result resolver `find_window` delegates to the pipeline;
an empty result raises `WindowNotFoundError`, two or more elements raise
`WindowAmbiguousError` carrying the full matched set and the criteria, and a
single element is returned. -/
theorem find_window_single_result (env : Env) (c : CriteriaE) :
    (find_elements env c = .ok [] → find_window env c = .error (.notFound none)) ∧
    (∀ ws, find_elements env c = .ok ws → 2 ≤ ws.length →
      find_window env c = .error (.ambiguous ws c)) ∧
    (∀ w, find_elements env c = .ok [w] → find_window env c = .ok w) := by
  refine ⟨fun h => by simp [find_window, h], ?_, fun w h => by simp [find_window, h]⟩
  intro ws h hlen
  match ws, hlen with
  | a :: b :: rest, _ => simp [find_window, h]

/-- Witness for C1 at a concrete input: the default criteria match both
sample elements, so `find_window` reports the ambiguity. -/
theorem find_window_single_result_witness :
    find_window sampleEnv {} = .error (.ambiguous [1, 2] {}) :=
  (find_window_single_result sampleEnv {}).2.1 [1, 2] rfl (by decide)

/-- Counterexample for C7: with `class_name = "Button"` and a
`class_name_re` that matches nothing, the exact-match survivor is removed by
the regex filter, both at the class-name step and in `find_elements`; the
exact match alone does not determine the survivors. -/
theorem class_name_re_applied_despite_class_name :
    stepClass (fun _ => "Button") (some "Button") (some (fun _ => false)) [1] = [] ∧
    stepClass (fun _ => "Button") (some "Button") none [1] = [1] ∧
    find_elements sampleEnv
      { class_name := some "Button", class_name_re := some (fun _ => false) } = .ok [] ∧
    find_elements sampleEnv { class_name := some "Button" } = .ok [1] :=
  ⟨rfl, rfl, rfl, rfl⟩

/-- C7 amended: the class-name step applies the exact `class_name` filter and
then, independently (two separate `if` statements, not an `elif`), the
`class_name_re` filter; when both are given an element survives the step
exactly when its class name equals `class_name` and `class_name_re` matches
it. -/
theorem class_step_applies_both_filters (getClass : Int → String) (cn : String)
    (r : String → Bool) (l : List Int) :
    stepClass getClass (some cn) (some r) l =
      l.filter (fun e => getClass e == cn && r (getClass e)) := by
  simp [stepClass, List.filter_filter]
  exact List.filter_congr fun a _ => Bool.and_comm _ _

/-- C8: an element whose display text is `None` never matches a `title_re`
criterion: the title filter (a total function: no exception) keeps only
elements of its input whose text is defined and matched. -/
theorem title_re_excludes_undefined_text (getText : Int → Option String)
    (r : String → Bool) (l : List Int) (e : Int)
    (he : e ∈ stepTitle getText none (some r) l) :
    e ∈ l ∧ ∃ s, getText e = some s ∧ r s = true := by
  unfold stepTitle at he
  rw [List.mem_filter] at he
  obtain ⟨hmem, hp⟩ := he
  refine ⟨hmem, ?_⟩
  cases hg : getText e with
  | none => rw [hg] at hp; cases hp
  | some s => exact ⟨s, rfl, by rw [hg] at hp; exact hp⟩

/-- Witness for C8 at a concrete input: element 1 (text "OK") survives the
`title_re` filter over the sample population, element 2 (text `None`) having
been excluded. -/
theorem title_re_excludes_undefined_text_witness :
    (1 : Int) ∈ [1, 2] ∧ ∃ s, sampleEnv.windowText 1 = some s ∧ (fun _ : String => true) s = true :=
  title_re_excludes_undefined_text sampleEnv.windowText (fun _ => true) [1, 2] 1 (by decide)

/-- Reading of `pyGet` at a nonnegative out-of-range index: `IndexError`. -/
theorem pyGet_nonneg_oob (xs : List Int) (i : Int) (h0 : 0 ≤ i)
    (h : (xs.length : Int) ≤ i) : pyGet xs i = .error .indexError := by
  simp only [pyGet]
  rw [if_neg (not_lt.mpr h0), if_neg (by omega : ¬(0 ≤ i ∧ i < (xs.length : Int)))]

/-- Reading of `pyGet` at a nonnegative in-range index: the element there. -/
theorem pyGet_nonneg_ok (xs : List Int) (i : Int) (h0 : 0 ≤ i)
    (h : i.toNat < xs.length) : pyGet xs i = .ok (xs.get ⟨i.toNat, h⟩) := by
  simp only [pyGet]
  rw [if_neg (not_lt.mpr h0), if_pos ⟨h0, by omega⟩, List.getD_eq_get _ _ h]

/-- Membership fact for `pyGet`: a successfully indexed element is a member. -/
theorem pyGet_mem (xs : List Int) (i : Int) (x : Int)
    (h : pyGet xs i = .ok x) : x ∈ xs := by
  simp only [pyGet] at h
  split at h
  · split at h
    · rename_i hc
      have hlt : (i + (xs.length : Int)).toNat < xs.length := by omega
      rw [List.getD_eq_get _ _ hlt] at h
      injection h with h1
      rw [← h1]
      exact List.get_mem _ _ _
    · cases h
  · split at h
    · rename_i hc
      have hlt : i.toNat < xs.length := by omega
      rw [List.getD_eq_get _ _ hlt] at h
      injection h with h1
      rw [← h1]
      exact List.get_mem _ _ _
    · cases h

/-- Dropping before a one-longer take isolates the element at that index. -/
theorem drop_take_succ (l : List Int) (k : Nat) (h : k < l.length) :
    (l.take (k + 1)).drop k = [l.get ⟨k, h⟩] := by
  induction l generalizing k with
  | nil => cases h
  | cons x xs ih =>
    cases k with
    | zero => rfl
    | succ k => exact ih k (by simpa using h)

/-- Reading of the Python slice `l[i:i+1]` at a nonnegative in-range index. -/
theorem pySlice_singleton (l : List Int) (i : Int) (h0 : 0 ≤ i)
    (h : i.toNat < l.length) : pySlice l i (i + 1) = [l.get ⟨i.toNat, h⟩] := by
  unfold pySlice pySliceIdx
  rw [if_neg (not_lt.mpr h0), if_neg (by omega : ¬ i + 1 < 0)]
  have e2 : (i + 1).toNat = i.toNat + 1 := by omega
  rw [min_eq_left (le_of_lt h), e2, min_eq_left h]
  exact drop_take_succ l i.toNat h

/-- Reading of the `found_index` step at a nonnegative out-of-range index:
`WindowNotFoundError` carrying the index and the count. -/
theorem applyFoundIndex_oob (l : List Int) (i : Int)
    (hle : (l.length : Int) ≤ i) :
    applyFoundIndex (some i) l = .error (.notFound (some (i, l.length))) := by
  simp only [applyFoundIndex]
  rw [if_neg (not_lt.mpr hle)]

/-- Reading of the `found_index` step at a nonnegative in-range index: the
singleton at that position. -/
theorem applyFoundIndex_nonneg_ok (l : List Int) (i : Int) (h0 : 0 ≤ i)
    (h : i.toNat < l.length) :
    applyFoundIndex (some i) l = .ok [l.get ⟨i.toNat, h⟩] := by
  simp only [applyFoundIndex]
  rw [if_pos (by omega : i < (l.length : Int)), pySlice_singleton l i h0 h]

/-- C4: in descendant mode with a (nonnegative) `ctrl_index`, an index not
below the descendant count raises `IndexError` — a condition distinct from
`WindowNotFoundError`, never a silent clamp — and an in-range index returns
exactly the element at that position of the unfiltered descendant list. -/
theorem ctrl_index_out_of_range :
    (∀ (env : Env) (c : CriteriaE) (i : Int),
      c.handle = none → c.top_level_only = false → c.ctrl_index = some i → 0 ≤ i →
      (((descendantPopE env c.parent).length : Int) ≤ i →
        find_elements env c = .error .indexError) ∧
      (∀ h : i.toNat < (descendantPopE env c.parent).length,
        find_elements env c = .ok [(descendantPopE env c.parent).get ⟨i.toNat, h⟩]) ∧
      (∀ info, FindErr.indexError ≠ FindErr.notFound info)) ∧
    (∀ (wenv : WEnv) (c : CriteriaW) (i : Int),
      c.handle = none → c.top_level_only = false → c.ctrl_index = some i → 0 ≤ i →
      (((descendantPopW wenv c.parent).length : Int) ≤ i →
        find_windows wenv c = .error .indexError) ∧
      (∀ h : i.toNat < (descendantPopW wenv c.parent).length,
        find_windows wenv c = .ok [(descendantPopW wenv c.parent).get ⟨i.toNat, h⟩]) ∧
      (∀ info, FindErr.indexError ≠ FindErr.notFound info)) := by
  constructor
  · intro env c i hH hT hC h0
    have key : find_elements env c =
        (pyGet (descendantPopE env c.parent) i).map (fun x => [x]) := by
      unfold find_elements find_elements_counted acquireE
      rw [hH, hT, hC]
      simp
    refine ⟨fun hle => ?_, fun h => ?_, fun info h => FindErr.noConfusion h⟩
    · rw [key, pyGet_nonneg_oob _ _ h0 hle]; rfl
    · rw [key, pyGet_nonneg_ok _ _ h0 h]; rfl
  · intro wenv c i hH hT hC h0
    have key : find_windows wenv c =
        (pyGet (descendantPopW wenv c.parent) i).map (fun x => [x]) := by
      unfold find_windows find_windows_counted acquireW
      rw [hH, hT, hC]
      simp
    refine ⟨fun hle => ?_, fun h => ?_, fun info h => FindErr.noConfusion h⟩
    · rw [key, pyGet_nonneg_oob _ _ h0 hle]; rfl
    · rw [key, pyGet_nonneg_ok _ _ h0 h]; rfl

/-- Witness for C4 at concrete inputs: descendant population `[10, 11, 12]`;
index 5 raises `IndexError`, index 1 returns `[11]`. -/
theorem ctrl_index_out_of_range_witness :
    find_elements sampleEnv { top_level_only := false, ctrl_index := some 5 } = .error .indexError ∧
    find_elements sampleEnv { top_level_only := false, ctrl_index := some 1 } = .ok [11] :=
  ⟨(ctrl_index_out_of_range.1 sampleEnv _ 5 rfl rfl rfl (by decide)).1 (by decide),
   (ctrl_index_out_of_range.1 sampleEnv _ 1 rfl rfl rfl (by decide)).2.1 (by decide)⟩

/-- Counterexample for C10: with filtered sequence `[1, 2]` (two elements, so
`|-1|` does not exceed the size), `found_index = -1` does pass the guard but
returns the empty list, not the last element. -/
theorem negative_found_index_empty_slice :
    find_elements sampleEnv { found_index := some (-1) } = .ok [] ∧
    find_elements sampleEnv { found_index := none } = .ok [1, 2] :=
  ⟨rfl, rfl⟩

/-- C10 amended: a negative `found_index` always passes the guard
`found_index < len(elements)`, so neither pipeline raises; by Python slice
semantics `found_index = -1` yields the empty list (the slice `[-1:0]`),
while `found_index ≤ -2` with `|found_index| ≤ len` yields the one element at
position `len - |found_index|`, i.e. counted from the end. -/
theorem negative_found_index_slices (l : List Int) (i : Int) (hneg : i < 0) :
    (∃ r, applyFoundIndex (some i) l = .ok r) ∧
    (i = -1 → applyFoundIndex (some i) l = .ok []) ∧
    (∀ h : 2 ≤ (-i).toNat ∧ (-i).toNat ≤ l.length,
      applyFoundIndex (some i) l =
        .ok [l.get ⟨l.length - (-i).toNat, by omega⟩]) := by
  have hguard : i < (l.length : Int) := by omega
  refine ⟨?_, ?_, ?_⟩
  · simp only [applyFoundIndex]
    rw [if_pos hguard]
    exact ⟨_, rfl⟩
  · intro h1
    subst h1
    simp only [applyFoundIndex]
    rw [if_pos hguard]
    unfold pySlice pySliceIdx
    simp
  · intro h
    simp only [applyFoundIndex]
    rw [if_pos hguard]
    have hs : pySliceIdx l.length i = l.length - (-i).toNat := by
      unfold pySliceIdx
      rw [if_pos hneg]
      omega
    have he : pySliceIdx l.length (i + 1) = l.length - (-i).toNat + 1 := by
      unfold pySliceIdx
      rw [if_pos (by omega : i + 1 < 0)]
      omega
    unfold pySlice
    rw [hs, he]
    exact congrArg Except.ok (drop_take_succ l (l.length - (-i).toNat) (by omega))

/-- Witness for C10's amended claim at a concrete input: `found_index = -2`
over three elements selects the second-from-last, `[2]`. -/
theorem negative_found_index_slices_witness :
    applyFoundIndex (some (-2)) [1, 2, 3] = .ok [2] :=
  (negative_found_index_slices [1, 2, 3] (-2) (by decide)).2.2 ⟨by decide, by decide⟩

/-- Reading of the title step when an exact `title` is given: the `elif`
branch is skipped, so `title_re` is irrelevant. -/
theorem stepTitle_of_title (getText : Int → Option String) (t : String)
    (tre : Option (String → Bool)) (l : List Int) :
    stepTitle getText (some t) tre l = l.filter (fun e => getText e == some t) := rfl

/-- Irrelevance of `title_re` in the tail of `find_elements` when `title` is
given. -/
theorem restE_tre_irrel (env : Env) (cn : Option String)
    (cnre : Option (String → Bool)) (par : Option ParentArg) (prc : Option Int)
    (t : String) (tre tre' : Option (String → Bool)) (tlo vo eo : Bool)
    (bm : Option String) (hd ci fi : Option Int) (pf : Option (Int → Bool))
    (ao : Bool) (cid : Option Int) (l : List Int) :
    restE env ⟨cn, cnre, par, prc, some t, tre, tlo, vo, eo, bm, hd, ci, fi, pf, ao, cid⟩ l =
    restE env ⟨cn, cnre, par, prc, some t, tre', tlo, vo, eo, bm, hd, ci, fi, pf, ao, cid⟩ l := by
  unfold restE
  cases hl : l.isEmpty
  · simp only [hl, Bool.false_eq_true, if_false]
    unfold filterTailE
    rw [stepTitle_of_title, stepTitle_of_title]
  · simp [hl]

/-- Irrelevance of `title_re` in the tail of `find_windows` when `title` is
given. -/
theorem restW_tre_irrel (wenv : WEnv) (cn : Option String)
    (cnre : Option (String → Bool)) (par : Option Int) (prc : Option Int)
    (t : String) (tre tre' : Option (String → Bool)) (tlo vo eo : Bool)
    (bm : Option String) (hd ci fi : Option Int) (pf : Option (Int → Bool))
    (ao : Bool) (cid : Option Int) (l : List Int) :
    restW wenv ⟨cn, cnre, par, prc, some t, tre, tlo, vo, eo, bm, hd, ci, fi, pf, ao, cid⟩ l =
    restW wenv ⟨cn, cnre, par, prc, some t, tre', tlo, vo, eo, bm, hd, ci, fi, pf, ao, cid⟩ l := by
  unfold restW
  cases hl : l.isEmpty
  · simp only [hl, Bool.false_eq_true, if_false]
    unfold filterTailW
    rw [stepTitle_of_title, stepTitle_of_title]
  · simp [hl]

/-- C6: when both `title` and `title_re` are given, only the exact `title`
match is applied — the result of either pipeline equals the result with
`title_re` removed. -/
theorem title_precedes_title_re :
    (∀ (env : Env) (c : CriteriaE) (t : String) (r : String → Bool),
      c.title = some t → c.title_re = some r →
      find_elements env c = find_elements env { c with title_re := none }) ∧
    (∀ (wenv : WEnv) (c : CriteriaW) (t : String) (r : String → Bool),
      c.title = some t → c.title_re = some r →
      find_windows wenv c = find_windows wenv { c with title_re := none }) := by
  constructor
  · intro env c t r ht hre
    obtain ⟨cn, cnre, par, prc, ti, tre, tlo, vo, eo, bm, hd, ci, fi, pf, ao, cid⟩ := c
    dsimp only at ht hre
    subst ht
    subst hre
    unfold find_elements find_elements_counted
    dsimp only
    cases hd with
    | some h => rfl
    | none =>
      cases hA : acquireE env tlo par ci with
      | inl res => rfl
      | inr elems =>
        unfold afterAcquireE
        cases ao with
        | false =>
          dsimp only
          exact congrArg Prod.fst (congrArg (fun x => (x, 0))
            (restE_tre_irrel env cn cnre par prc t (some r) none tlo vo eo bm
              none ci fi pf false cid _))
        | true =>
          dsimp only
          cases hS : stepActive env (stepControlId env.controlId cid elems) with
          | error e => rfl
          | ok l2 =>
            exact congrArg Prod.fst (congrArg (fun x => (x, 1))
              (restE_tre_irrel env cn cnre par prc t (some r) none tlo vo eo bm
                none ci fi pf true cid l2))
  · intro wenv c t r ht hre
    obtain ⟨cn, cnre, par, prc, ti, tre, tlo, vo, eo, bm, hd, ci, fi, pf, ao, cid⟩ := c
    dsimp only at ht hre
    subst ht
    subst hre
    unfold find_windows find_windows_counted
    dsimp only
    cases hd with
    | some h => rfl
    | none =>
      cases hA : acquireW wenv tlo par ci with
      | inl res => rfl
      | inr ws =>
        unfold afterAcquireW
        cases ao with
        | false =>
          dsimp only
          exact congrArg Prod.fst (congrArg (fun x => (x, 0))
            (restW_tre_irrel wenv cn cnre par prc t (some r) none tlo vo eo bm
              none ci fi pf false cid _))
        | true =>
          dsimp only
          cases hS : stepActiveW wenv (stepControlId wenv.controlid cid ws) with
          | error e => rfl
          | ok l2 =>
            exact congrArg Prod.fst (congrArg (fun x => (x, 1))
              (restW_tre_irrel wenv cn cnre par prc t (some r) none tlo vo eo bm
                none ci fi pf true cid l2))

/-- Witness for C6 at a concrete input: a `title_re` matching nothing has no
effect once `title = "OK"` is given. -/
theorem title_precedes_title_re_witness :
    find_elements sampleEnv { title := some "OK", title_re := some (fun _ => false) } =
      find_elements sampleEnv { title := some "OK" } :=
  title_precedes_title_re.1 sampleEnv
    { title := some "OK", title_re := some (fun _ => false) } "OK" (fun _ => false) rfl rfl

/-- Population acquisition never short-circuits in top-level mode, nor in
descendant mode without `ctrl_index` (UIA pipeline). -/
theorem acquireE_inr (env : Env) (tlo : Bool) (par : Option ParentArg)
    (ci : Option Int) (hci : tlo = false → ci = none) :
    ∃ elems, acquireE env tlo par ci = .inr elems := by
  cases tlo
  · rw [hci rfl]
    exact ⟨_, rfl⟩
  · unfold acquireE
    exact ⟨_, rfl⟩

/-- Population acquisition never short-circuits in top-level mode, nor in
descendant mode without `ctrl_index` (native pipeline). -/
theorem acquireW_inr (wenv : WEnv) (tlo : Bool) (par : Option Int)
    (ci : Option Int) (hci : tlo = false → ci = none) :
    ∃ ws, acquireW wenv tlo par ci = .inr ws := by
  cases tlo
  · rw [hci rfl]
    exact ⟨_, rfl⟩
  · unfold acquireW
    exact ⟨_, rfl⟩

/-- C9: with `active_only` set (and the pipeline not short-circuited by
`handle` or `ctrl_index`), each pipeline performs exactly one
`GetGUIThreadInfo` platform query whatever the population; the active-step
reduces the population to the single member whose handle is the active one,
or to empty when no member matches. -/
theorem active_only_single_query :
    (∀ (env : Env) (c : CriteriaE) (hw : Int),
      c.active_only = true → c.handle = none →
      (c.top_level_only = false → c.ctrl_index = none) →
      env.guiThreadInfo = some hw →
      (find_elements_counted env c).2 = 1 ∧
      (∀ l e, l.find? (fun x => env.handleOf x == some hw) = some e →
        stepActive env l = .ok [e]) ∧
      (∀ l, l.find? (fun x => env.handleOf x == some hw) = none →
        stepActive env l = .ok [])) ∧
    (∀ (wenv : WEnv) (c : CriteriaW) (hw : Int),
      c.active_only = true → c.handle = none →
      (c.top_level_only = false → c.ctrl_index = none) →
      wenv.guiThreadInfo = some hw →
      (find_windows_counted wenv c).2 = 1 ∧
      (∀ l, hw ∈ l → stepActiveW wenv l = .ok [hw]) ∧
      (∀ l, hw ∉ l → stepActiveW wenv l = .ok [])) := by
  constructor
  · intro env c hw hA hH hci hG
    obtain ⟨elems, hacq⟩ := acquireE_inr env c.top_level_only c.parent c.ctrl_index hci
    refine ⟨?_, ?_, ?_⟩
    · simp only [find_elements_counted, afterAcquireE, hH, hacq, hA]
      cases hS : stepActive env (stepControlId env.controlId c.control_id elems) with
      | error e => simp [hS]
      | ok l2 => simp [hS]
    · intro l e hf
      unfold stepActive
      simp [hG, hf]
    · intro l hf
      unfold stepActive
      simp [hG, hf]
  · intro wenv c hw hA hH hci hG
    obtain ⟨ws, hacq⟩ := acquireW_inr wenv c.top_level_only c.parent c.ctrl_index hci
    refine ⟨?_, ?_, ?_⟩
    · simp only [find_windows_counted, afterAcquireW, hH, hacq, hA]
      cases hS : stepActiveW wenv (stepControlId wenv.controlid c.control_id ws) with
      | error e => simp [hS]
      | ok l2 => simp [hS]
    · intro l hm
      unfold stepActiveW
      simp [hG, hm]
    · intro l hm
      unfold stepActiveW
      simp [hG, hm]

/-- Witness for C9 at a concrete input: one query over the sample population,
and the active element 2 is selected by the active step. -/
theorem active_only_single_query_witness :
    (find_elements_counted sampleEnv { active_only := true }).2 = 1 ∧
    stepActive sampleEnv [1, 2] = .ok [2] :=
  ⟨(active_only_single_query.1 sampleEnv { active_only := true } 2 rfl rfl
      (fun h => nomatch h) rfl).1,
   (active_only_single_query.1 sampleEnv { active_only := true } 2 rfl rfl
      (fun h => nomatch h) rfl).2.1 [1, 2] 2 rfl⟩

/-- Bridge for the tail of `find_elements`: when the population `l2` that
reaches the early-stop check is nonempty, the run with `found_index` removed
produces the fully filtered sequence `l` (possibly empty), and the run with
`found_index` applies the `found_index` step to exactly that `l`. -/
theorem restE_found_index_bridge (env : Env) (cn : Option String)
    (cnre : Option (String → Bool)) (par : Option ParentArg) (prc : Option Int)
    (ti : Option String) (tre : Option (String → Bool)) (tlo vo eo : Bool)
    (bm : Option String) (hd ci : Option Int) (fi : Option Int)
    (pf : Option (Int → Bool)) (ao : Bool) (cid : Option Int) (l2 l : List Int)
    (hne : l2 ≠ [])
    (hpre : restE env ⟨cn, cnre, par, prc, ti, tre, tlo, vo, eo, bm, hd, ci, none, pf, ao, cid⟩ l2 = .ok l) :
    restE env ⟨cn, cnre, par, prc, ti, tre, tlo, vo, eo, bm, hd, ci, fi, pf, ao, cid⟩ l2 =
      applyFoundIndex fi l := by
  unfold restE at hpre ⊢
  have hl : l2.isEmpty = false := by
    cases l2 with
    | nil => exact absurd rfl hne
    | cons a t => rfl
  simp only [hl, Bool.false_eq_true, if_false] at hpre ⊢
  have hX : filterTailE env cn cnre prc ti tre vo eo bm pf l2 = l := by
    simpa [applyFoundIndex] using hpre
  rw [hX]

/-- Bridge for the tail of `find_windows`, analogous to
`restE_found_index_bridge`. -/
theorem restW_found_index_bridge (wenv : WEnv) (cn : Option String)
    (cnre : Option (String → Bool)) (par : Option Int) (prc : Option Int)
    (ti : Option String) (tre : Option (String → Bool)) (tlo vo eo : Bool)
    (bm : Option String) (hd ci : Option Int) (fi : Option Int)
    (pf : Option (Int → Bool)) (ao : Bool) (cid : Option Int) (l2 l : List Int)
    (hne : l2 ≠ [])
    (hpre : restW wenv ⟨cn, cnre, par, prc, ti, tre, tlo, vo, eo, bm, hd, ci, none, pf, ao, cid⟩ l2 = .ok l) :
    restW wenv ⟨cn, cnre, par, prc, ti, tre, tlo, vo, eo, bm, hd, ci, fi, pf, ao, cid⟩ l2 =
      applyFoundIndex fi l := by
  unfold restW at hpre ⊢
  have hl : l2.isEmpty = false := by
    cases l2 with
    | nil => exact absurd rfl hne
    | cons a t => rfl
  simp only [hl, Bool.false_eq_true, if_false] at hpre ⊢
  have hX : filterTailW wenv cn cnre prc ti tre vo eo bm pf l2 = l := by
    simpa [applyFoundIndex] using hpre
  rw [hX]

/-- Bridge for `find_elements`: when not short-circuited by `handle` or
`ctrl_index`, and the population `l0` at the early-stop check is nonempty,
the full run equals the `found_index` step applied to the result `l`
(possibly empty) of the run with `found_index` removed. -/
theorem find_elements_reaches_found_index (env : Env) (c : CriteriaE) (l0 l : List Int)
    (hH : c.handle = none) (hci : c.top_level_only = false → c.ctrl_index = none)
    (hpop : preFilterPopE env c = .ok l0) (hne : l0 ≠ [])
    (hpre : find_elements env { c with found_index := none } = .ok l) :
    find_elements env c = applyFoundIndex c.found_index l := by
  obtain ⟨cn, cnre, par, prc, ti, tre, tlo, vo, eo, bm, hd, ci, fi, pf, ao, cid⟩ := c
  dsimp only at hH hci hpop hpre ⊢
  subst hH
  obtain ⟨elems, hacq⟩ := acquireE_inr env tlo par ci hci
  unfold find_elements find_elements_counted at hpre ⊢
  unfold preFilterPopE at hpop
  simp only [hacq] at hpop hpre ⊢
  unfold afterAcquireE at hpre ⊢
  dsimp only at hpop hpre ⊢
  cases ao with
  | false =>
    have h0 : stepControlId env.controlId cid elems = l0 := by
      simpa using hpop
    refine restE_found_index_bridge env cn cnre par prc ti tre tlo vo eo bm
      none ci fi pf false cid _ l ?_ hpre
    rw [h0]
    exact hne
  | true =>
    cases hS : stepActive env (stepControlId env.controlId cid elems) with
    | error e =>
      rw [hS] at hpre
      simp at hpre
    | ok l2 =>
      rw [hS] at hpre hpop
      have h0 : l2 = l0 := by
        simpa using hpop
      refine restE_found_index_bridge env cn cnre par prc ti tre tlo vo eo bm
        none ci fi pf true cid l2 l ?_ hpre
      rw [h0]
      exact hne

/-- Bridge for `find_windows`, analogous to
`find_elements_reaches_found_index`. -/
theorem find_windows_reaches_found_index (wenv : WEnv) (c : CriteriaW) (l0 l : List Int)
    (hH : c.handle = none) (hci : c.top_level_only = false → c.ctrl_index = none)
    (hpop : preFilterPopW wenv c = .ok l0) (hne : l0 ≠ [])
    (hpre : find_windows wenv { c with found_index := none } = .ok l) :
    find_windows wenv c = applyFoundIndex c.found_index l := by
  obtain ⟨cn, cnre, par, prc, ti, tre, tlo, vo, eo, bm, hd, ci, fi, pf, ao, cid⟩ := c
  dsimp only at hH hci hpop hpre ⊢
  subst hH
  obtain ⟨ws, hacq⟩ := acquireW_inr wenv tlo par ci hci
  unfold find_windows find_windows_counted at hpre ⊢
  unfold preFilterPopW at hpop
  simp only [hacq] at hpop hpre ⊢
  unfold afterAcquireW at hpre ⊢
  dsimp only at hpop hpre ⊢
  cases ao with
  | false =>
    have h0 : stepControlId wenv.controlid cid ws = l0 := by
      simpa using hpop
    refine restW_found_index_bridge wenv cn cnre par prc ti tre tlo vo eo bm
      none ci fi pf false cid _ l ?_ hpre
    rw [h0]
    exact hne
  | true =>
    cases hS : stepActiveW wenv (stepControlId wenv.controlid cid ws) with
    | error e =>
      rw [hS] at hpre
      simp at hpre
    | ok l2 =>
      rw [hS] at hpre hpop
      have h0 : l2 = l0 := by
        simpa using hpop
      refine restW_found_index_bridge wenv cn cnre par prc ti tre tlo vo eo bm
        none ci fi pf true cid l2 l ?_ hpre
      rw [h0]
      exact hne

/-- C3 amended: when the pipeline actually reaches the `found_index` check
(no `handle`/`ctrl_index` short-circuit, and the population `l0` at the
early-stop check after the `active_only` step is nonempty) and `found_index`
is nonnegative, then with `l` the fully filtered sequence — possibly emptied
by the later filters — an index not below the count raises
`WindowNotFoundError` carrying the requested index and the count, and an
in-range index returns exactly the one element at that position. -/
theorem found_index_dichotomy :
    (∀ (env : Env) (c : CriteriaE) (i : Int) (l0 l : List Int),
      c.found_index = some i → 0 ≤ i → c.handle = none →
      (c.top_level_only = false → c.ctrl_index = none) →
      preFilterPopE env c = .ok l0 → l0 ≠ [] →
      find_elements env { c with found_index := none } = .ok l →
      (((l.length : Int) ≤ i →
        find_elements env c = .error (.notFound (some (i, l.length)))) ∧
       (∀ h : i.toNat < l.length, find_elements env c = .ok [l.get ⟨i.toNat, h⟩]))) ∧
    (∀ (wenv : WEnv) (c : CriteriaW) (i : Int) (l0 l : List Int),
      c.found_index = some i → 0 ≤ i → c.handle = none →
      (c.top_level_only = false → c.ctrl_index = none) →
      preFilterPopW wenv c = .ok l0 → l0 ≠ [] →
      find_windows wenv { c with found_index := none } = .ok l →
      (((l.length : Int) ≤ i →
        find_windows wenv c = .error (.notFound (some (i, l.length)))) ∧
       (∀ h : i.toNat < l.length, find_windows wenv c = .ok [l.get ⟨i.toNat, h⟩]))) := by
  constructor
  · intro env c i l0 l hfi h0 hH hci hpop hne hpre
    have key := find_elements_reaches_found_index env c l0 l hH hci hpop hne hpre
    rw [hfi] at key
    exact ⟨fun hle => key.trans (applyFoundIndex_oob l i hle),
           fun h => key.trans (applyFoundIndex_nonneg_ok l i h0 h)⟩
  · intro wenv c i l0 l hfi h0 hH hci hpop hne hpre
    have key := find_windows_reaches_found_index wenv c l0 l hH hci hpop hne hpre
    rw [hfi] at key
    exact ⟨fun hle => key.trans (applyFoundIndex_oob l i hle),
           fun h => key.trans (applyFoundIndex_nonneg_ok l i h0 h)⟩

/-- Witness for C3's amended claim at concrete inputs: the population at the
early stop is `[1, 2]`; index 5 over the filtered sequence `[1, 2]` raises
`WindowNotFoundError` carrying `(5, 2)`, index 1 returns `[2]`, and with a
`class_name` that empties the nonempty population the reached `found_index`
check raises `WindowNotFoundError` carrying `(0, 0)`. -/
theorem found_index_dichotomy_witness :
    find_elements sampleEnv { found_index := some 5 } = .error (.notFound (some (5, 2))) ∧
    find_elements sampleEnv { found_index := some 1 } = .ok [2] ∧
    find_elements sampleEnv { class_name := some "NoSuch", found_index := some 0 } =
      .error (.notFound (some (0, 0))) :=
  ⟨(found_index_dichotomy.1 sampleEnv { found_index := some 5 } 5 [1, 2] [1, 2] rfl (by decide)
      rfl (fun h => nomatch h) rfl (by decide) rfl).1 (by decide),
   (found_index_dichotomy.1 sampleEnv { found_index := some 1 } 1 [1, 2] [1, 2] rfl (by decide)
      rfl (fun h => nomatch h) rfl (by decide) rfl).2 (by decide),
   (found_index_dichotomy.1 sampleEnv { class_name := some "NoSuch", found_index := some 0 } 0
      [1, 2] [] rfl (by decide) rfl (fun h => nomatch h) rfl (by decide) rfl).1 (by decide)⟩


/-- Counterexample for C3: with an empty population the early stop
`if not elements: return elements` returns `ok []` before the `found_index`
check, so `found_index = 0` with count 0 does not raise
`WindowNotFoundError` as the claim demands. -/
theorem found_index_skipped_on_empty_population :
    find_elements emptyEnv { found_index := some 0 } = .ok [] ∧
    ∀ info, (Except.ok ([] : List Int) : Except FindErr (List Int)) ≠ .error (.notFound info) :=
  ⟨rfl, fun _ h => Except.noConfusion h⟩

/-- Subset fact for the `control_id` step. -/
theorem stepControlId_subset (g : Int → Int) (cid : Option Int) (l : List Int) :
    ∀ e ∈ stepControlId g cid l, e ∈ l := by
  intro e he
  cases cid with
  | none => exact he
  | some v =>
    simp only [stepControlId] at he
    by_cases hl : l.isEmpty = true
    · rw [if_pos hl] at he
      exact he
    · rw [if_neg hl] at he
      exact List.mem_of_mem_filter he

/-- Subset fact for the class-name step. -/
theorem stepClass_subset (g : Int → String) (cn : Option String)
    (cnre : Option (String → Bool)) (l : List Int) :
    ∀ e ∈ stepClass g cn cnre l, e ∈ l := by
  intro e he
  unfold stepClass at he
  cases cnre with
  | none =>
    cases cn with
    | none => exact he
    | some s => exact List.mem_of_mem_filter he
  | some r =>
    have he1 := List.mem_of_mem_filter he
    cases cn with
    | none => exact he1
    | some s => exact List.mem_of_mem_filter he1

/-- Subset fact for the `process` step. -/
theorem stepProcess_subset (g : Int → Int) (p : Option Int) (l : List Int) :
    ∀ e ∈ stepProcess g p l, e ∈ l := by
  intro e he
  unfold stepProcess at he
  cases p with
  | none => exact he
  | some pid => exact List.mem_of_mem_filter he

/-- Subset fact for the title step. -/
theorem stepTitle_subset (g : Int → Option String) (t : Option String)
    (tre : Option (String → Bool)) (l : List Int) :
    ∀ e ∈ stepTitle g t tre l, e ∈ l := by
  intro e he
  unfold stepTitle at he
  cases t with
  | some s => exact List.mem_of_mem_filter he
  | none =>
    cases tre with
    | none => exact he
    | some r => exact List.mem_of_mem_filter he

/-- Subset fact for the `visible_only` step. -/
theorem stepVisible_subset (g : Int → Bool) (vo : Bool) (l : List Int) :
    ∀ e ∈ stepVisible g vo l, e ∈ l := by
  intro e he
  unfold stepVisible at he
  cases vo with
  | false => exact he
  | true => exact List.mem_of_mem_filter he

/-- Subset fact for the `enabled_only` step. -/
theorem stepEnabled_subset (g : Int → Bool) (eo : Bool) (l : List Int) :
    ∀ e ∈ stepEnabled g eo l, e ∈ l := by
  intro e he
  unfold stepEnabled at he
  cases eo with
  | false => exact he
  | true => exact List.mem_of_mem_filter he

/-- Subset fact for the `predicate_func` step. -/
theorem stepPredicate_subset (pf : Option (Int → Bool)) (l : List Int) :
    ∀ e ∈ stepPredicate pf l, e ∈ l := by
  intro e he
  unfold stepPredicate at he
  cases pf with
  | none => exact he
  | some f => exact List.mem_of_mem_filter he

/-- Subset fact for the filter tail of `find_elements` when `best_match` is
absent. -/
theorem filterTailE_subset (env : Env) (cn : Option String)
    (cnre : Option (String → Bool)) (prc : Option Int) (t : Option String)
    (tre : Option (String → Bool)) (vo eo : Bool) (pf : Option (Int → Bool))
    (l : List Int) :
    ∀ e ∈ filterTailE env cn cnre prc t tre vo eo none pf l, e ∈ l := by
  intro e he
  unfold filterTailE at he
  exact stepClass_subset _ _ _ _ _
    (stepProcess_subset _ _ _ _
      (stepTitle_subset _ _ _ _ _
        (stepVisible_subset _ _ _ _
          (stepEnabled_subset _ _ _ _
            (stepPredicate_subset _ _ _ he)))))

/-- Subset fact for the `found_index` step on success. -/
theorem applyFoundIndex_ok_subset (fi : Option Int) (l r : List Int)
    (h : applyFoundIndex fi l = .ok r) : ∀ e ∈ r, e ∈ l := by
  intro e he
  cases fi with
  | none =>
    simp only [applyFoundIndex] at h
    injection h with h1
    rw [← h1] at he
    exact he
  | some i =>
    simp only [applyFoundIndex] at h
    split at h
    · injection h with h1
      rw [← h1] at he
      unfold pySlice at he
      exact List.take_subset _ _ (List.drop_subset _ _ he)
    · cases h

/-- Subset fact for the `active_only` step of `find_elements` on success. -/
theorem stepActive_ok_subset (env : Env) (l r : List Int)
    (h : stepActive env l = .ok r) : ∀ e ∈ r, e ∈ l := by
  intro e he
  unfold stepActive at h
  cases hg : env.guiThreadInfo with
  | none => rw [hg] at h; cases h
  | some hw =>
    rw [hg] at h
    injection h with h1
    cases hf : l.find? (fun x => env.handleOf x == some hw) with
    | none =>
      rw [hf] at h1
      rw [← h1] at he
      cases he
    | some a =>
      rw [hf] at h1
      rw [← h1] at he
      have hea : e = a := by simpa using he
      rw [hea]
      exact List.mem_of_find?_eq_some hf

/-- Subset fact for the tail of `find_elements` on success, when `best_match`
is absent. -/
theorem restE_ok_subset (env : Env) (cn : Option String)
    (cnre : Option (String → Bool)) (par : Option ParentArg) (prc : Option Int)
    (ti : Option String) (tre : Option (String → Bool)) (tlo vo eo : Bool)
    (hd ci fi : Option Int) (pf : Option (Int → Bool)) (ao : Bool)
    (cid : Option Int) (l2 l : List Int)
    (h : restE env ⟨cn, cnre, par, prc, ti, tre, tlo, vo, eo, none, hd, ci, fi, pf, ao, cid⟩ l2 = .ok l) :
    ∀ e ∈ l, e ∈ l2 := by
  intro e he
  unfold restE at h
  split at h
  · injection h with h1
    rw [← h1] at he
    exact he
  · exact filterTailE_subset env cn cnre prc ti tre vo eo pf l2 e
      (applyFoundIndex_ok_subset fi _ l h e he)

/-- Acquisition in top-level mode yields a subset of the enumerated
top-level elements. -/
theorem acquireE_top_subset (env : Env) (par : Option ParentArg)
    (ci : Option Int) (elems : List Int)
    (hacq : acquireE env true par ci = .inr elems) :
    ∀ e ∈ elems, e ∈ env.enumElements := by
  intro e he
  unfold acquireE at hacq
  rw [if_pos rfl] at hacq
  cases hp : resolvedParentE env par with
  | none =>
    rw [hp] at hacq
    injection hacq with h1
    rw [← h1] at he
    exact he
  | some pe =>
    rw [hp] at hacq
    injection hacq with h1
    rw [← h1] at he
    exact List.mem_of_mem_filter he

/-- Counterexample for C5, in two parts: (i) with `handle` given, the single
returned element is fabricated from the handle and no population is acquired
at all (here the top-level population is empty, yet the result is `[5]`);
(ii) with `best_match` given, the stage re-creates its survivors through
`UIAElementInfo(elem.handle)` (line 232 of the source), and the re-created
element 99 is not a member of the population `[1]` that was acquired. -/
theorem result_escapes_population :
    (find_elements emptyEnv { handle := some 5 } = .ok [5] ∧
      initPopE emptyEnv { handle := some 5 } = []) ∧
    (find_elements bmEnv { best_match := some "x" } = .ok [99] ∧
      initPopE bmEnv { best_match := some "x" } = [1] ∧
      (99 : Int) ∉ ([1] : List Int)) :=
  ⟨⟨rfl, rfl⟩, rfl, rfl, by decide⟩

/-- C5 amended: whenever `handle` is absent and `best_match` is absent (the
counterexample shows each of the two escapes concretely: the `handle`
short-circuit fabricates an element from the handle, and the `best_match`
stage re-creates elements from wrapped handles), every element of a
successful `find_elements` result belongs to the initial population of the
acquisition mode. -/
theorem find_elements_subset_of_population (env : Env) (c : CriteriaE)
    (l : List Int) (hH : c.handle = none) (hbm : c.best_match = none)
    (hres : find_elements env c = .ok l) :
    ∀ e, e ∈ l → e ∈ initPopE env c := by
  obtain ⟨cn, cnre, par, prc, ti, tre, tlo, vo, eo, bm, hd, ci, fi, pf, ao, cid⟩ := c
  dsimp only at hH hbm hres ⊢
  subst hH
  subst hbm
  intro e he
  unfold find_elements find_elements_counted at hres
  unfold initPopE
  dsimp only at hres ⊢
  cases tlo with
  | false =>
    rw [if_neg (by simp)]
    cases ci with
    | some i =>
      rw [show acquireE env false par (some i) =
            .inl ((pyGet (descendantPopE env par) i).map (fun x => [x])) from rfl] at hres
      dsimp only at hres
      cases hp : pyGet (descendantPopE env par) i with
      | error e2 =>
        rw [hp] at hres
        cases hres
      | ok x =>
        rw [hp] at hres
        have h1 : [x] = l := by
          simpa [Except.map] using hres
        rw [← h1] at he
        have hex : e = x := by simpa using he
        rw [hex]
        exact pyGet_mem _ _ _ hp
    | none =>
      rw [show acquireE env false par none = .inr (descendantPopE env par) from rfl] at hres
      dsimp only at hres
      unfold afterAcquireE at hres
      dsimp only at hres
      cases ao with
      | false =>
        exact stepControlId_subset env.controlId cid _ e
          (restE_ok_subset env cn cnre par prc ti tre false vo eo none none fi pf false cid _ l hres e he)
      | true =>
        cases hS : stepActive env (stepControlId env.controlId cid (descendantPopE env par)) with
        | error e2 =>
          rw [hS] at hres
          cases hres
        | ok l2 =>
          rw [hS] at hres
          exact stepControlId_subset env.controlId cid _ e
            (stepActive_ok_subset env _ l2 hS e
              (restE_ok_subset env cn cnre par prc ti tre false vo eo none none fi pf true cid l2 l hres e he))
  | true =>
    rw [if_pos rfl]
    cases hacq : acquireE env true par ci with
    | inl res =>
      rw [hacq] at hres
      dsimp only at hres
      exact absurd hacq (by
        unfold acquireE
        rw [if_pos rfl]
        cases resolvedParentE env par <;> simp)
    | inr elems =>
      rw [hacq] at hres
      dsimp only at hres
      unfold afterAcquireE at hres
      dsimp only at hres
      have hsub : ∀ x ∈ elems, x ∈ env.enumElements := acquireE_top_subset env par ci elems hacq
      cases ao with
      | false =>
        exact hsub e (stepControlId_subset env.controlId cid elems e
          (restE_ok_subset env cn cnre par prc ti tre true vo eo none ci fi pf false cid _ l hres e he))
      | true =>
        cases hS : stepActive env (stepControlId env.controlId cid elems) with
        | error e2 =>
          rw [hS] at hres
          cases hres
        | ok l2 =>
          rw [hS] at hres
          exact hsub e (stepControlId_subset env.controlId cid elems e
            (stepActive_ok_subset env _ l2 hS e
              (restE_ok_subset env cn cnre par prc ti tre true vo eo none ci fi pf true cid l2 l hres e he)))

/-- Witness for C5's amended claim at a concrete input: the single survivor
of a `class_name` search over the sample population is a member of that
population. -/
theorem find_elements_subset_of_population_witness :
    (1 : Int) ∈ initPopE sampleEnv { class_name := some "Button" } :=
  find_elements_subset_of_population sampleEnv { class_name := some "Button" }
    [1] rfl rfl rfl 1 (by decide)
